import Mathlib

/-!
Verification of the `ask_first` FIRST-survey image query library.

The definitions below are a shallow embedding of the installed package
module `ask_first/__init__.py` (the module that `setup.py` distributes).
Python floats are modelled as exact rationals (for the index and the
nearest-centre search) and as real numbers (for the cutout geometry,
which uses trigonometry).  Python strings are modelled as `List Char`
(Python compares strings lexicographically by code point, which is the
lexicographic order on `List Char`).  Functions that can raise are
modelled with `Option`/`Except`.
-/

namespace AskFirst

/-- File names and file-system paths, modelled as character lists. -/
abbrev Path : Type := List Char

/-- A tile centre in degrees: (RA, Dec), exact rational model of the
Python float pair. -/
abbrev Centre : Type := ℚ × ℚ

/-- The tile index: insertion-ordered mapping from a centre to the list of
paths of FITS files centred there.  Models the `collections.defaultdict(list)`
built by `read_paths` (Python dicts preserve insertion order). -/
abbrev TileIndex : Type := List (Centre × List Path)

/-! ### Nearest-centre locator (`get_image`, lines 113-131 of `__init__.py`) -/

/-- Squared Euclidean distance between two coordinate pairs, RA and Dec
treated as orthogonal axes.  `scipy.spatial.distance.cdist` computes the
Euclidean distance `sqrt (sqDist p q)`; since the square root is strictly
monotone, minimising the distance is minimising `sqDist`, and the first
index attaining the minimum is the same for both. -/
def sqDist (p q : Centre) : ℚ :=
  (p.1 - q.1) ^ 2 + (p.2 - q.2) ^ 2

/-- Left-to-right scan keeping the first centre with minimal distance to
`q`; this is `centres[dists.argmin()]` (`numpy.argmin` returns the first
position of the minimum). -/
def nearestAux (q : Centre) : Centre → List Centre → Centre
  | best, [] => best
  | best, c :: cs =>
    if sqDist q c < sqDist q best then nearestAux q c cs else nearestAux q best cs

/-- The centre of the index closest to the query `q`; `none` models the
exception raised when the centre list is empty. -/
def nearestCentre (q : Centre) : List Centre → Option Centre
  | [] => none
  | c :: cs => some (nearestAux q c cs)

/-- The key list of the index: `list(paths.keys())` in insertion order. -/
def keys (idx : TileIndex) : List Centre :=
  idx.map Prod.fst

/-- Dictionary lookup `paths[closest]`: the path list stored under an
exactly matching key (empty if the key is absent, which cannot happen for
the key returned by the nearest-centre search). -/
def lookup (idx : TileIndex) (c : Centre) : List Path :=
  match idx.find? (fun e => e.1 = c) with
  | none => []
  | some e => e.2

/-- Python's `min` over a list: a left fold with the binary minimum
(`min x y` keeps `x` on ties, as Python's `min` keeps the earlier
element); `none` models the `ValueError` raised on an empty sequence. -/
def pyMin : List Path → Option Path
  | [] => none
  | p :: ps => some (ps.foldl min p)

/-- Failure modes of `get_image`, named as in the specification's error
taxonomy.  In the Python source, `noTilesIndexed` is the exception raised
by `cdist`/`argmin` on an empty centre list, `emptyPathSet` the
`ValueError` of `min` on an empty sequence (unreachable for an index built
by `read_paths`), `degenerateBoundingBox` the `AssertionError` of the
bounding-box asserts, `fieldWithDict` the explicit `ValueError` of the
argument check, and `parseFailure` the `ValueError` escaping from
`read_paths`. -/
inductive GetImageError : Type
  | noTilesIndexed
  | emptyPathSet
  | degenerateBoundingBox
  | fieldWithDict
  | parseFailure
deriving DecidableEq

/-- The path-selection stage of `get_image` for a pre-built index: find
the nearest centre, then `min(paths[closest])` (lines 116-130). -/
def locate (idx : TileIndex) (q : Centre) : Except GetImageError Path :=
  match nearestCentre q (keys idx) with
  | none => Except.error GetImageError.noTilesIndexed
  | some c =>
    match pyMin (lookup idx c) with
    | none => Except.error GetImageError.emptyPathSet
    | some p => Except.ok p

/-! ### Tile index builder (`read_paths`, lines 29-75 of `__init__.py`) -/

/-- Accumulate the decimal value of a digit string; any non-digit
character makes the whole parse fail, as `int` does in Python. -/
def digitsValAux : Nat → List Char → Option Nat
  | acc, [] => some acc
  | acc, c :: cs =>
    if c.isDigit then digitsValAux (10 * acc + (c.toNat - 48)) cs else none

/-- Value of a non-empty digit string (`int` fails on an empty string). -/
def digitsVal? (cs : List Char) : Option Nat :=
  if cs.isEmpty then none else digitsValAux 0 cs

/-- Python's `int(s)` on the strings reachable here: an optional sign
followed by at least one decimal digit; anything else raises `ValueError`,
modelled as `none`. -/
def pyInt? (cs : List Char) : Option Int :=
  match cs with
  | [] => none
  | c :: rest =>
    if c = '-' then (digitsVal? rest).map (fun n => -(n : Int))
    else if c = '+' then (digitsVal? rest).map (fun n => (n : Int))
    else (digitsVal? cs).map (fun n => (n : Int))

/-- The check `filename.startswith('.')`. -/
def isHidden : Path → Bool
  | [] => false
  | c :: _ => c = '.'

/-- The check `filename.endswith('.fits')`. -/
def isFits (f : Path) : Bool :=
  (".fits".toList).isSuffixOf f

/-- Model of `os.path.join(dirpath, filename)` for a directory name
without a trailing separator. -/
def pyJoin (d f : Path) : Path :=
  d ++ '/' :: f

/-- Decode a tile centre from a filename, exactly as `read_paths` does
(lines 61-68 of `__init__.py`):

  `ra, dec = filename[:5], filename[5:11]`,
  `ra = int(ra[:2]) + int(ra[2:4]) / 60 + int(ra[4]) / 10 / 60`,
  `ra *= 360 / 24`,
  `dec = int(dec[:3]) + int(dec[3:5]) / 60 + int(dec[5]) / 10 / 60`.

A failing `int` (or an out-of-range single-character index, which also
raises in Python) makes the result `none`; in the Python code the
exception propagates out of `read_paths`. -/
def parseCentre (cs : Path) : Option Centre := do
  let ra := cs.take 5
  let de := (cs.drop 5).take 6
  let hh ← pyInt? (ra.take 2)
  let mm ← pyInt? ((ra.drop 2).take 2)
  let ss ← pyInt? ((ra.drop 4).take 1)
  let dd ← pyInt? (de.take 3)
  let dm ← pyInt? ((de.drop 3).take 2)
  let ds ← pyInt? ((de.drop 5).take 1)
  pure (((hh : ℚ) + (mm : ℚ) / 60 + (ss : ℚ) / 10 / 60) * (360 / 24),
        (dd : ℚ) + (dm : ℚ) / 60 + (ds : ℚ) / 10 / 60)

/-- Decoder following the specification's words instead of the source:
the final digit of each group contributes `seconds_fraction / 60 / 60`
(claim C4's formula).  Kept for comparison with `parseCentre`, which is
the faithful embedding of the package source and divides the final digit
by `10 / 60` instead. -/
def parseCentreClaimed (cs : Path) : Option Centre := do
  let ra := cs.take 5
  let de := (cs.drop 5).take 6
  let hh ← pyInt? (ra.take 2)
  let mm ← pyInt? ((ra.drop 2).take 2)
  let ss ← pyInt? ((ra.drop 4).take 1)
  let dd ← pyInt? (de.take 3)
  let dm ← pyInt? ((de.drop 3).take 2)
  let ds ← pyInt? ((de.drop 5).take 1)
  pure (((hh : ℚ) + (mm : ℚ) / 60 + (ss : ℚ) / 60 / 60) * (360 / 24),
        (dd : ℚ) + (dm : ℚ) / 60 + (ds : ℚ) / 60 / 60)

/-- Failure mode of the index build: the `ValueError` raised by `int` on
an unparsable filename, which `read_paths` does not catch. -/
inductive BuildError : Type
  | parseFailure
deriving DecidableEq

/-- Append a path under a centre key: `centre_to_path[tuple(centre)].append(path)`
on a `defaultdict(list)`: an existing key keeps its position and gets the
path appended; a new key is appended at the end. -/
def insertPath (idx : TileIndex) (c : Centre) (p : Path) : TileIndex :=
  match idx with
  | [] => [(c, [p])]
  | (c', ps) :: rest =>
    if c' = c then (c', ps ++ [p]) :: rest else (c', ps) :: insertPath rest c p

/-- The filename filter of `read_paths`: not hidden and ending in `.fits`. -/
def keepFile (df : Path × Path) : Bool :=
  !isHidden df.2 && isFits df.2

/-- Body of the `os.walk` loop of `read_paths` over the remaining
`(dirpath, filename)` pairs, carrying the index built so far.  Hidden
files and files without the `.fits` extension are skipped by `continue`;
a filename that does not parse raises, aborting the whole build. -/
def readPathsAux (idx : TileIndex) : List (Path × Path) → Except BuildError TileIndex
  | [] => Except.ok idx
  | df :: fs =>
    if isHidden df.2 then readPathsAux idx fs
    else if isFits df.2 = false then readPathsAux idx fs
    else
      match parseCentre df.2 with
      | none => Except.error BuildError.parseFailure
      | some c => readPathsAux (insertPath idx c (pyJoin df.1 df.2)) fs

/-- Model of `read_paths(first_path)`: build the index over the
`(dirpath, filename)` pairs enumerated by `os.walk` (the walk itself is an
external capability; its output list is the function's input here). -/
def readPaths (files : List (Path × Path)) : Except BuildError TileIndex :=
  readPathsAux [] files

/-- All path entries stored in an index, in index order. -/
def pathsList (idx : TileIndex) : List Path :=
  (idx.map Prod.snd).flatten

/-! ### Entry-point dispatch (`get_image`, lines 107-133 of `__init__.py`) -/

/-- The `paths` argument of `get_image`: either a pre-built index (a
`dict`) or a root directory (a `str`), the latter carrying the directory
name and the `(dirpath, filename)` pairs `os.walk` would enumerate. -/
inductive PathsArg : Type
  | index (idx : TileIndex)
  | root (dir : Path) (files : List (Path × Path))

/-- The path-determining prefix of `get_image` (lines 107-133): the
`field`/`dict` argument check, the implicit index build for a root
directory, the nearest-centre search with the epoch tie-break, and the
direct field path `os.path.join(paths, field[:5], field + '.fits')`.
The `coord` argument arrives already decoded to degrees. -/
def getImagePath (coord : Centre) (paths : PathsArg) (field : Option Path) :
    Except GetImageError Path :=
  match field, paths with
  | some _, PathsArg.index _ => Except.error GetImageError.fieldWithDict
  | some f, PathsArg.root dir _ =>
      Except.ok (pyJoin dir (pyJoin (f.take 5) (f ++ ".fits".toList)))
  | none, PathsArg.index idx => locate idx coord
  | none, PathsArg.root _ files =>
      match readPaths files with
      | Except.error _ => Except.error GetImageError.parseFailure
      | Except.ok idx => locate idx coord

/-! ### Sky-to-pixel cutout extractor (`get_image`, lines 135-151) -/

/-- Degrees to radians, `numpy.deg2rad`. -/
noncomputable def deg2rad (x : ℝ) : ℝ :=
  x * (Real.pi / 180)

/-- Left RA bound `min_ra = ra + width / 2` (RA increases to the left). -/
noncomputable def minRa (ra w : ℝ) : ℝ :=
  ra + w / 2

/-- Right RA bound `max_ra = ra - width / 2`. -/
noncomputable def maxRa (ra w : ℝ) : ℝ :=
  ra - w / 2

/-- Angular height `height = numpy.cos(numpy.deg2rad(dec)) * width`. -/
noncomputable def bboxHeight (dec w : ℝ) : ℝ :=
  Real.cos (deg2rad dec) * w

/-- Lower Dec bound `min_dec = dec - height / 2`. -/
noncomputable def minDec (dec w : ℝ) : ℝ :=
  dec - bboxHeight dec w / 2

/-- Upper Dec bound `max_dec = dec + height / 2`. -/
noncomputable def maxDec (dec w : ℝ) : ℝ :=
  dec + bboxHeight dec w / 2

/-- Python's `int()` on a float: truncation toward zero. -/
noncomputable def pyTrunc (x : ℝ) : ℤ :=
  if 0 ≤ x then ⌊x⌋ else -⌊-x⌋

/-- Normalise a Python slice endpoint for a sequence of length `n`:
negative indices count from the end, and endpoints are clamped to
`[0, n]`. -/
def pyIdx (n : Nat) (i : Int) : Nat :=
  if i < 0 then ((n : Int) + i).toNat else min i.toNat n

/-- Python's slice `l[a:b]` (step 1). -/
def pySlice {α : Type} (l : List α) (a b : Int) : List α :=
  (l.drop (pyIdx l.length a)).take (pyIdx l.length b - pyIdx l.length a)

/-- The two-dimensional slice `image[min_y:max_y, min_x:max_x]` of the
spatial plane (the two non-spatial axes are already fixed at index 0). -/
def pySlice2 (image : List (List ℚ)) (y0 y1 x0 x1 : Int) : List (List ℚ) :=
  (pySlice image y0 y1).map (fun row => pySlice row x0 x1)

/-- Pixel coordinates of the `(min_ra, min_dec)` corner under the tile's
world-to-pixel transform `w2p` (the WCS is an external capability). -/
noncomputable def pixMin (w2p : ℝ × ℝ → ℝ × ℝ) (ra dec w : ℝ) : ℝ × ℝ :=
  w2p (minRa ra w, minDec dec w)

/-- Pixel coordinates of the `(max_ra, max_dec)` corner. -/
noncomputable def pixMax (w2p : ℝ × ℝ → ℝ × ℝ) (ra dec w : ℝ) : ℝ × ℝ :=
  w2p (maxRa ra w, maxDec dec w)

open Classical in
/-- The extraction stage of `get_image` (lines 141-151): compute the sky
bounding box, transform its two corners to pixels, enforce
`assert min_x < max_x` and `assert min_y < max_y`, and only then slice
the patch.  The assertion failures are the specification's
`DegenerateBoundingBoxError`. -/
noncomputable def cutout (w2p : ℝ × ℝ → ℝ × ℝ) (image : List (List ℚ))
    (ra dec w : ℝ) : Except GetImageError (List (List ℚ)) :=
  if (pixMin w2p ra dec w).1 < (pixMax w2p ra dec w).1 then
    if (pixMin w2p ra dec w).2 < (pixMax w2p ra dec w).2 then
      Except.ok (pySlice2 image
        (pyTrunc (pixMin w2p ra dec w).2) (pyTrunc (pixMax w2p ra dec w).2)
        (pyTrunc (pixMin w2p ra dec w).1) (pyTrunc (pixMax w2p ra dec w).1))
    else Except.error GetImageError.degenerateBoundingBox
  else Except.error GetImageError.degenerateBoundingBox

/-! ### Properties of the nearest-centre scan -/

/-- The scan result is the starting candidate or one of the scanned centres. -/
theorem nearestAux_mem (q best : Centre) (l : List Centre) :
    nearestAux q best l = best ∨ nearestAux q best l ∈ l := by
  induction l generalizing best with
  | nil => exact Or.inl rfl
  | cons c cs ih =>
    simp only [nearestAux]
    by_cases h : sqDist q c < sqDist q best
    · rw [if_pos h]
      rcases ih c with h' | h'
      · rw [h']
        exact Or.inr (List.mem_cons_self c cs)
      · exact Or.inr (List.mem_cons_of_mem c h')
    · rw [if_neg h]
      rcases ih best with h' | h'
      · exact Or.inl h'
      · exact Or.inr (List.mem_cons_of_mem c h')

/-- The scan result has minimal squared distance among the starting
candidate and all scanned centres. -/
theorem nearestAux_le (q : Centre) (l : List Centre) :
    ∀ best x, x = best ∨ x ∈ l → sqDist q (nearestAux q best l) ≤ sqDist q x := by
  induction l with
  | nil =>
    intro best x hx
    rcases hx with h | h
    · rw [h]
      exact le_refl _
    · cases h
  | cons c cs ih =>
    intro best x hx
    simp only [nearestAux]
    by_cases h : sqDist q c < sqDist q best
    · rw [if_pos h]
      rcases hx with h1 | h1
      · rw [h1]
        exact le_trans (ih c c (Or.inl rfl)) (le_of_lt h)
      · rcases List.mem_cons.mp h1 with h2 | h2
        · rw [h2]
          exact ih c c (Or.inl rfl)
        · exact ih c x (Or.inr h2)
    · rw [if_neg h]
      rcases hx with h1 | h1
      · rw [h1]
        exact ih best best (Or.inl rfl)
      · rcases List.mem_cons.mp h1 with h2 | h2
        · rw [h2]
          exact le_trans (ih best best (Or.inl rfl)) (not_lt.mp h)
        · exact ih best x (Or.inr h2)

/-! ### Properties of Python's `min` over a list -/

/-- A `min`-fold yields the start element or a list element. -/
theorem foldlMin_mem {α : Type} [LinearOrder α] (l : List α) :
    ∀ a : α, l.foldl min a ∈ a :: l := by
  induction l with
  | nil => intro a; exact List.mem_singleton.mpr rfl
  | cons b t ih =>
    intro a
    simp only [List.foldl_cons]
    rcases List.mem_cons.mp (ih (min a b)) with h1 | h1
    · rw [h1]
      rcases min_choice a b with h | h
      · rw [h]
        exact List.mem_cons_self a (b :: t)
      · rw [h]
        exact List.mem_cons_of_mem a (List.mem_cons_self b t)
    · exact List.mem_cons_of_mem a (List.mem_cons_of_mem b h1)

/-- A `min`-fold is a lower bound of the start element and the list. -/
theorem foldlMin_le {α : Type} [LinearOrder α] (l : List α) :
    ∀ a x, x ∈ a :: l → l.foldl min a ≤ x := by
  induction l with
  | nil =>
    intro a x hx
    rw [List.mem_singleton.mp hx]
    exact le_refl _
  | cons b t ih =>
    intro a x hx
    simp only [List.foldl_cons]
    have hmin : t.foldl min (min a b) ≤ min a b :=
      ih (min a b) (min a b) (List.mem_cons_self _ _)
    rcases List.mem_cons.mp hx with h1 | h1
    · rw [h1]
      exact le_trans hmin (min_le_left a b)
    · rcases List.mem_cons.mp h1 with h2 | h2
      · rw [h2]
        exact le_trans hmin (min_le_right a b)
      · exact ih (min a b) x (List.mem_cons_of_mem _ h2)

/-- Python's `min` on a non-empty list returns a minimal element. -/
theorem pyMin_spec (ps : List Path) (h : ps ≠ []) :
    ∃ p, pyMin ps = some p ∧ p ∈ ps ∧ ∀ r ∈ ps, p ≤ r := by
  cases ps with
  | nil => exact absurd rfl h
  | cons p t =>
    exact ⟨t.foldl min p, rfl, foldlMin_mem t p, fun r hr => foldlMin_le t p r hr⟩

/-! ### Claims about the locator -/

/-- C1: for every non-empty tile index and every query coordinate, the
centre chosen by `get_image` (the `argmin` over the `cdist` Euclidean
distances, embedded as `nearestCentre`) is a key of the index, and no key
has a strictly smaller Euclidean distance (RA and Dec orthogonal, no
spherical correction) to the query. -/
theorem get_image_nearest_centre (idx : TileIndex) (q : Centre)
    (h : keys idx ≠ []) :
    ∃ c, nearestCentre q (keys idx) = some c ∧ c ∈ keys idx ∧
      ∀ c' ∈ keys idx,
        Real.sqrt ((sqDist q c : ℚ) : ℝ) ≤ Real.sqrt ((sqDist q c' : ℚ) : ℝ) := by
  cases hk : keys idx with
  | nil => exact absurd hk h
  | cons c cs =>
    refine ⟨nearestAux q c cs, rfl, ?_, ?_⟩
    · rcases nearestAux_mem q c cs with h' | h'
      · rw [h']
        exact List.mem_cons_self c cs
      · exact List.mem_cons_of_mem c h'
    · intro c' hc'
      apply Real.sqrt_le_sqrt
      have hle : sqDist q (nearestAux q c cs) ≤ sqDist q c' := by
        apply nearestAux_le
        rcases List.mem_cons.mp hc' with rfl | h''
        · exact Or.inl rfl
        · exact Or.inr h''
      exact_mod_cast hle

/-- Witness for C1: a two-centre index queried at `(0, 1)`. -/
theorem get_image_nearest_centre_witness :
    ∃ c, nearestCentre (0, 1) (keys [((0, 0), [['a']]), ((3, 4), [['b']])]) = some c ∧
      c ∈ keys [((0, 0), [['a']]), ((3, 4), [['b']])] ∧
      ∀ c' ∈ keys [((0, 0), [['a']]), ((3, 4), [['b']])],
        Real.sqrt ((sqDist (0, 1) c : ℚ) : ℝ) ≤ Real.sqrt ((sqDist (0, 1) c' : ℚ) : ℝ) :=
  get_image_nearest_centre [((0, 0), [['a']]), ((3, 4), [['b']])] (0, 1)
    (by simp [keys])

/-- C2: when the chosen centre maps to two or more file paths, the path
returned by `get_image` is `min(paths[closest])`: it belongs to the
centre's path list, is lexicographically least in it (so for paths that
differ only in the epoch-identifying trailing letter, the smallest such
letter wins), and is the unique such path, making the selection
deterministic across repeated calls with the same index and query. -/
theorem get_image_epoch_tiebreak (idx : TileIndex) (q c : Centre)
    (hc : nearestCentre q (keys idx) = some c)
    (hlen : 2 ≤ (lookup idx c).length) :
    ∃ p, locate idx q = Except.ok p ∧ p ∈ lookup idx c ∧
      (∀ r ∈ lookup idx c, p ≤ r) ∧
      ∀ p', p' ∈ lookup idx c → (∀ r ∈ lookup idx c, p' ≤ r) → p' = p := by
  have hne : lookup idx c ≠ [] := by
    intro h0
    rw [h0] at hlen
    simp at hlen
  obtain ⟨p, hp, hmem, hle⟩ := pyMin_spec (lookup idx c) hne
  refine ⟨p, ?_, hmem, hle, ?_⟩
  · unfold locate
    rw [hc]
    show (match pyMin (lookup idx c) with
      | none => Except.error GetImageError.emptyPathSet
      | some p => Except.ok p) = Except.ok p
    rw [hp]
  · intro p' hmem' hle'
    exact le_antisymm (hle' p hmem) (hle p' hmem')

/-- Witness for C2: the specification's epoch example, a centre mapping to
`XB.fits`, `XA.fits`, `XS.fits`; the selected path is the lexicographically
smallest. -/
theorem get_image_epoch_tiebreak_witness :
    ∃ p, locate [((1, 2), ["XB.fits".toList, "XA.fits".toList, "XS.fits".toList])] (1, 2) =
        Except.ok p ∧
      p ∈ lookup [((1, 2), ["XB.fits".toList, "XA.fits".toList, "XS.fits".toList])] (1, 2) ∧
      (∀ r ∈ lookup [((1, 2), ["XB.fits".toList, "XA.fits".toList, "XS.fits".toList])] (1, 2),
        p ≤ r) ∧
      ∀ p', p' ∈ lookup [((1, 2), ["XB.fits".toList, "XA.fits".toList, "XS.fits".toList])] (1, 2) →
        (∀ r ∈ lookup [((1, 2), ["XB.fits".toList, "XA.fits".toList, "XS.fits".toList])] (1, 2),
          p' ≤ r) → p' = p :=
  get_image_epoch_tiebreak _ (1, 2) (1, 2) rfl (by simp [lookup, List.find?])

/-- C6: a query against an index with no tile centres fails with
`NoTilesIndexedError` (in the source, the exception raised by
`cdist`/`argmin` on an empty centre list) instead of returning a path. -/
theorem get_image_empty_index (idx : TileIndex) (q : Centre) (h : keys idx = []) :
    getImagePath q (PathsArg.index idx) none =
      Except.error GetImageError.noTilesIndexed := by
  show locate idx q = _
  unfold locate
  rw [h]
  rfl

/-- Witness for C6: the literally empty index. -/
theorem get_image_empty_index_witness :
    getImagePath (0, 0) (PathsArg.index []) none =
      Except.error GetImageError.noTilesIndexed :=
  get_image_empty_index [] (0, 0) rfl

/-- C10: calling `get_image` with a non-`None` `field` argument and a
pre-built index (`dict`) for `paths` raises `ValueError` immediately,
before any nearest-centre search runs or any file is opened. -/
theorem get_image_field_with_dict (coord : Centre) (idx : TileIndex) (f : Path) :
    getImagePath coord (PathsArg.index idx) (some f) =
      Except.error GetImageError.fieldWithDict :=
  rfl

/-! ### Properties of the index builder -/

/-- Appending a path into the index adds exactly that path entry. -/
theorem insertPath_perm (idx : TileIndex) (c : Centre) (p : Path) :
    (pathsList (insertPath idx c p)).Perm (p :: pathsList idx) := by
  induction idx with
  | nil => simp [insertPath, pathsList]
  | cons e rest ih =>
    obtain ⟨c', ps⟩ := e
    simp only [insertPath]
    by_cases h : c' = c
    · rw [if_pos h]
      simp only [pathsList, List.map_cons, List.flatten_cons]
      rw [List.append_assoc]
      exact List.perm_middle
    · rw [if_neg h]
      simp only [pathsList, List.map_cons, List.flatten_cons]
      have step := (ih.append_left ps).trans List.perm_middle
      simpa [pathsList] using step

/-- If every surviving filename parses, the build loop succeeds and adds
exactly the joined paths of the surviving files. -/
theorem readPathsAux_ok (files : List (Path × Path)) :
    ∀ idx : TileIndex,
      (∀ df ∈ files, isHidden df.2 = false → isFits df.2 = true →
        (parseCentre df.2).isSome = true) →
      ∃ out, readPathsAux idx files = Except.ok out ∧
        (pathsList out).Perm
          (pathsList idx ++ (files.filter keepFile).map (fun df => pyJoin df.1 df.2)) := by
  induction files with
  | nil =>
    intro idx h
    exact ⟨idx, rfl, by simp⟩
  | cons df fs ih =>
    intro idx h
    have htail : ∀ g ∈ fs, isHidden g.2 = false → isFits g.2 = true →
        (parseCentre g.2).isSome = true :=
      fun g hg => h g (List.mem_cons_of_mem _ hg)
    simp only [readPathsAux]
    by_cases h1 : isHidden df.2
    · rw [if_pos h1]
      have hfil : keepFile df = false := by simp [keepFile, h1]
      obtain ⟨out, ho, hp⟩ := ih idx htail
      refine ⟨out, ho, ?_⟩
      simpa [List.filter_cons, hfil] using hp
    · rw [if_neg h1]
      by_cases h2 : isFits df.2 = false
      · rw [if_pos h2]
        have hfil : keepFile df = false := by simp [keepFile, h2]
        obtain ⟨out, ho, hp⟩ := ih idx htail
        refine ⟨out, ho, ?_⟩
        simpa [List.filter_cons, hfil] using hp
      · rw [if_neg h2]
        have hhid : isHidden df.2 = false := Bool.eq_false_iff.mpr h1
        have hfit : isFits df.2 = true := eq_true_of_ne_false h2
        have hfil : keepFile df = true := by simp [keepFile, hhid, hfit]
        have hsome : (parseCentre df.2).isSome = true :=
          h df (List.mem_cons_self _ _) hhid hfit
        obtain ⟨c, hc⟩ := Option.isSome_iff_exists.mp hsome
        rw [hc]
        obtain ⟨out, ho, hp⟩ := ih (insertPath idx c (pyJoin df.1 df.2)) htail
        refine ⟨out, ho, ?_⟩
        have hins := (insertPath_perm idx c (pyJoin df.1 df.2)).append_right
          ((fs.filter keepFile).map (fun df => pyJoin df.1 df.2))
        have hmid : (pyJoin df.1 df.2 :: pathsList idx ++
            (fs.filter keepFile).map (fun df => pyJoin df.1 df.2)).Perm
            (pathsList idx ++ ((df :: fs).filter keepFile).map (fun df => pyJoin df.1 df.2)) := by
          simp only [List.filter_cons, hfil, if_pos, List.map_cons]
          exact List.perm_middle.symm
        exact (hp.trans hins).trans hmid

/-- An unparsable non-hidden `.fits` file anywhere in the walk makes the
build loop fail, whatever index has been accumulated so far. -/
theorem readPathsAux_abort (files : List (Path × Path)) :
    ∀ (idx : TileIndex) (df : Path × Path), df ∈ files → isHidden df.2 = false →
      isFits df.2 = true → parseCentre df.2 = none →
      readPathsAux idx files = Except.error BuildError.parseFailure := by
  induction files with
  | nil =>
    intro idx df h
    cases h
  | cons g fs ih =>
    intro idx df hmem hh hf hp
    simp only [readPathsAux]
    rcases List.mem_cons.mp hmem with h1 | h1
    · rw [← h1]
      simp [hh, hf, hp]
    · by_cases hg1 : isHidden g.2
      · rw [if_pos hg1]
        exact ih idx df h1 hh hf hp
      · rw [if_neg hg1]
        by_cases hg2 : isFits g.2 = false
        · rw [if_pos hg2]
          exact ih idx df h1 hh hf hp
        · rw [if_neg hg2]
          cases hpc : parseCentre g.2 with
          | none => rfl
          | some c => exact ih _ df h1 hh hf hp

/-! ### Claims about the index builder and the filename codec -/

/-- C4 counterexample: on the tile filename `00001+00000A.fits` the
package decoder (`read_paths`, which divides the final digit by `10 / 60`)
yields RA `1/40` degree, while the claimed
`degrees = whole + minutes/60 + seconds_fraction/60/60` formula yields
`1/240`; the decoder does not implement the claimed formula. -/
theorem read_paths_decode_cex :
    parseCentre ("00001+00000A.fits".toList) = some (1 / 40, 0) ∧
    parseCentreClaimed ("00001+00000A.fits".toList) = some (1 / 240, 0) ∧
    ((1 / 40 : ℚ), (0 : ℚ)) ≠ ((1 / 240 : ℚ), (0 : ℚ)) := by
  refine ⟨?_, ?_, ?_⟩
  · simp +decide [parseCentre, pyInt?, digitsVal?, digitsValAux]
    norm_num
  · simp +decide [parseCentreClaimed, pyInt?, digitsVal?, digitsValAux]
    norm_num
  · intro hEq
    have hfst := congrArg Prod.fst hEq
    norm_num at hfst

/-- C4 (amended): for every filename whose six sliced fields parse as
integers, the package index builder decodes
`RA = (HH + MM/60 + S/10/60) * 360/24` and `Dec = DD + MM/60 + S/10/60`:
the final digit of each group contributes tenths of arcminutes
(`digit/10/60`), not `seconds_fraction/60/60`.  (The legacy top-level
module `ask_first.py` is the one that divides by `60/60`.) -/
theorem read_paths_decode (cs : Path) (hh mm ss dd dm ds : ℤ)
    (h1 : pyInt? ((cs.take 5).take 2) = some hh)
    (h2 : pyInt? (((cs.take 5).drop 2).take 2) = some mm)
    (h3 : pyInt? (((cs.take 5).drop 4).take 1) = some ss)
    (h4 : pyInt? (((cs.drop 5).take 6).take 3) = some dd)
    (h5 : pyInt? ((((cs.drop 5).take 6).drop 3).take 2) = some dm)
    (h6 : pyInt? ((((cs.drop 5).take 6).drop 5).take 1) = some ds) :
    parseCentre cs =
      some (((hh : ℚ) + (mm : ℚ) / 60 + (ss : ℚ) / 10 / 60) * (360 / 24),
            (dd : ℚ) + (dm : ℚ) / 60 + (ds : ℚ) / 10 / 60) := by
  simp [parseCentre, h1, h2, h3, h4, h5, h6]

/-- Witness for C4's amended theorem: the documentation's example filename
`09210-07233R.fits`. -/
theorem read_paths_decode_witness :
    parseCentre ("09210-07233R.fits".toList) =
      some ((((9 : ℤ) : ℚ) + ((21 : ℤ) : ℚ) / 60 + ((0 : ℤ) : ℚ) / 10 / 60) * (360 / 24),
            ((-7 : ℤ) : ℚ) + ((23 : ℤ) : ℚ) / 60 + ((3 : ℤ) : ℚ) / 10 / 60) :=
  read_paths_decode ("09210-07233R.fits".toList) 9 21 0 (-7) 23 3
    (by decide) (by decide) (by decide) (by decide) (by decide) (by decide)

/-- C7 counterexample: a directory containing only the non-hidden
`.fits`-suffixed file `zzzzz.fits` yields no index at all — the build
raises instead of producing an index containing that file, so the index
does not include every non-hidden `.fits` file. -/
theorem read_paths_filter_cex :
    ¬ ∃ idx, readPaths [("data".toList, "zzzzz.fits".toList)] = Except.ok idx := by
  intro hE
  obtain ⟨idx, hi⟩ := hE
  have h : readPaths [("data".toList, "zzzzz.fits".toList)] =
      Except.error BuildError.parseFailure := rfl
  rw [h] at hi
  cases hi

/-- C7 (amended): provided every non-hidden `.fits` filename parses under
the fixed-width layout, the build succeeds and the index's path entries
are exactly the joined paths of the files that do not start with a dot
and end with `.fits`. -/
theorem read_paths_exact_filter (files : List (Path × Path))
    (h : ∀ df ∈ files, isHidden df.2 = false → isFits df.2 = true →
      (parseCentre df.2).isSome = true) :
    ∃ idx, readPaths files = Except.ok idx ∧
      (pathsList idx).Perm ((files.filter keepFile).map (fun df => pyJoin df.1 df.2)) := by
  obtain ⟨out, ho, hp⟩ := readPathsAux_ok files [] h
  refine ⟨out, ho, ?_⟩
  simpa [pathsList] using hp

/-- Witness for C7: the specification's scenario — one hidden file, one
non-tile file, and two valid tile files give exactly the two tile paths. -/
theorem read_paths_exact_filter_witness :
    ∃ idx, readPaths [("data".toList, ".hidden".toList),
        ("data".toList, "readme.txt".toList),
        ("data".toList, "07293+31106E.fits".toList),
        ("data".toList, "10510+30456F.fits".toList)] = Except.ok idx ∧
      (pathsList idx).Perm
        ((([("data".toList, ".hidden".toList),
            ("data".toList, "readme.txt".toList),
            ("data".toList, "07293+31106E.fits".toList),
            ("data".toList, "10510+30456F.fits".toList)].filter keepFile)).map
          (fun df => pyJoin df.1 df.2)) :=
  read_paths_exact_filter _ (by decide)

/-- C8 counterexample: a build over two valid tile files and one
unparsable `.fits` file aborts with the parse failure instead of skipping
the bad file and completing over the remaining ones. -/
theorem read_paths_skip_cex :
    readPaths [("d".toList, "11111+11111A.fits".toList),
        ("d".toList, "badname.fits".toList),
        ("d".toList, "22222+22222B.fits".toList)] =
      Except.error BuildError.parseFailure := rfl

/-- C8 (amended): a non-hidden file whose name ends in `.fits` but does
not parse under the fixed-width layout is not skipped: its `ValueError`
aborts the whole build, wherever the file occurs in the walk. -/
theorem read_paths_unparsable_aborts (files : List (Path × Path)) (df : Path × Path)
    (hmem : df ∈ files) (hh : isHidden df.2 = false) (hf : isFits df.2 = true)
    (hp : parseCentre df.2 = none) :
    readPaths files = Except.error BuildError.parseFailure :=
  readPathsAux_abort files [] df hmem hh hf hp

/-- Witness for C8's amended theorem: a good file followed by a bad one. -/
theorem read_paths_unparsable_aborts_witness :
    readPaths [("d".toList, "00000+00000A.fits".toList),
        ("d".toList, "ab.fits".toList)] =
      Except.error BuildError.parseFailure :=
  read_paths_unparsable_aborts _ ("d".toList, "ab.fits".toList)
    (by decide) (by decide) (by decide) (by decide)

/-! ### Properties of the cutout geometry -/

/-- Conversion bound: declinations strictly inside the poles map strictly
inside `(-pi/2, pi/2)`. -/
theorem deg2rad_abs_lt (dec : ℝ) (h : |dec| < 90) : |deg2rad dec| < Real.pi / 2 := by
  unfold deg2rad
  rw [abs_mul, abs_of_pos (by positivity : (0 : ℝ) < Real.pi / 180)]
  calc |dec| * (Real.pi / 180) < 90 * (Real.pi / 180) :=
        mul_lt_mul_of_pos_right h (by positivity)
    _ = Real.pi / 2 := by ring

/-- Ninety degrees in radians. -/
theorem deg2rad_ninety : deg2rad 90 = Real.pi / 2 := by
  unfold deg2rad
  ring

/-- Minus ninety degrees in radians. -/
theorem deg2rad_neg_ninety : deg2rad (-90) = -(Real.pi / 2) := by
  unfold deg2rad
  ring

/-! ### Claims about the cutout extractor -/

/-- C3 counterexample: at the pole `dec = 90` (a valid declination) with
width 1 the declination-dependent height vanishes, so the computed Dec
bounds coincide and `min_dec < max_dec` fails. -/
theorem bbox_mirror_cex :
    minDec 90 1 = maxDec 90 1 ∧ ¬ (minDec 90 1 < maxDec 90 1) := by
  have h : bboxHeight 90 1 = 0 := by
    unfold bboxHeight
    rw [deg2rad_ninety, Real.cos_pi_div_two, zero_mul]
  have heq : minDec 90 1 = maxDec 90 1 := by
    unfold minDec maxDec
    rw [h]
    ring
  exact ⟨heq, by rw [heq]; exact lt_irrefl _⟩

/-- C3 (amended): for every query coordinate and positive width the RA
axis of the sky bounding box is mirrored, `min_ra > max_ra`; and away from
the poles (`|dec| < 90`) the Dec axis is not, `min_dec < max_dec`. -/
theorem bbox_ra_mirrored (ra dec w : ℝ) (hw : 0 < w) (hdec : |dec| < 90) :
    maxRa ra w < minRa ra w ∧ minDec dec w < maxDec dec w := by
  constructor
  · unfold minRa maxRa
    linarith
  · have hpos : 0 < bboxHeight dec w := by
      unfold bboxHeight
      refine mul_pos ?_ hw
      refine Real.cos_pos_of_mem_Ioo ?_
      have hb := abs_lt.mp (deg2rad_abs_lt dec hdec)
      exact ⟨hb.1, hb.2⟩
    unfold minDec maxDec
    linarith

/-- Witness for C3's amended theorem: the documentation's reference query
`(162.5302917, 30.6770889)` with width `3/60` degrees. -/
theorem bbox_ra_mirrored_witness :
    maxRa 162.5302917 (3 / 60) < minRa 162.5302917 (3 / 60) ∧
      minDec 30.6770889 (3 / 60) < maxDec 30.6770889 (3 / 60) :=
  bbox_ra_mirrored 162.5302917 30.6770889 (3 / 60) (by norm_num)
    (by rw [abs_of_pos (by norm_num : (0 : ℝ) < 30.6770889)]; norm_num)

/-- C5: whenever the world-to-pixel transform of the two bounding-box
corners yields `min_x ≥ max_x` or `min_y ≥ max_y`, the extraction stage of
`get_image` signals the degenerate-bounding-box failure (the assertion
before the slice) and returns no patch. -/
theorem cutout_degenerate_bbox (w2p : ℝ × ℝ → ℝ × ℝ) (image : List (List ℚ))
    (ra dec w : ℝ)
    (h : (pixMax w2p ra dec w).1 ≤ (pixMin w2p ra dec w).1 ∨
      (pixMax w2p ra dec w).2 ≤ (pixMin w2p ra dec w).2) :
    cutout w2p image ra dec w = Except.error GetImageError.degenerateBoundingBox := by
  unfold cutout
  rcases h with h | h
  · rw [if_neg (not_lt.mpr h)]
  · by_cases hx : (pixMin w2p ra dec w).1 < (pixMax w2p ra dec w).1
    · rw [if_pos hx, if_neg (not_lt.mpr h)]
    · rw [if_neg hx]

/-- Witness for C5: a transform collapsing both corners to the origin. -/
theorem cutout_degenerate_bbox_witness :
    cutout (fun _ => ((0 : ℝ), (0 : ℝ))) [] 0 0 1 =
      Except.error GetImageError.degenerateBoundingBox :=
  cutout_degenerate_bbox (fun _ => ((0 : ℝ), (0 : ℝ))) [] 0 0 1 (Or.inl (le_refl 0))

/-- C9 counterexample: at width `w = 0` (and `dec = 45`) the computed
height equals the width instead of being strictly smaller than it, so the
strict inequality of the claim fails for non-positive widths. -/
theorem bbox_height_cex :
    bboxHeight 45 0 = 0 ∧ ¬ (bboxHeight 45 0 < 0) := by
  have h : bboxHeight 45 0 = 0 := by
    unfold bboxHeight
    rw [mul_zero]
  exact ⟨h, by rw [h]; exact lt_irrefl _⟩

/-- C9 (amended): the extractor's bounding-box height is
`cos(radians dec) * w`; it equals `w` at `dec = 0`, tends to zero as `dec`
approaches `+90` or `-90`, and for every positive width it is strictly
smaller than `w` whenever `0 < |dec| < 90`. -/
theorem bbox_height_foreshortening (dec w : ℝ) (hw : 0 < w) (h0 : dec ≠ 0)
    (h90 : |dec| < 90) :
    bboxHeight dec w = Real.cos (deg2rad dec) * w ∧
    bboxHeight 0 w = w ∧
    Filter.Tendsto (fun d => bboxHeight d w) (nhds 90) (nhds 0) ∧
    Filter.Tendsto (fun d => bboxHeight d w) (nhds (-90)) (nhds 0) ∧
    bboxHeight dec w < w := by
  have hcont : Continuous (fun d : ℝ => bboxHeight d w) := by
    simp only [bboxHeight, deg2rad]
    exact (Real.continuous_cos.comp (continuous_id.mul continuous_const)).mul
      continuous_const
  refine ⟨rfl, ?_, ?_, ?_, ?_⟩
  · unfold bboxHeight deg2rad
    rw [zero_mul, Real.cos_zero, one_mul]
  · have h1 : bboxHeight 90 w = 0 := by
      unfold bboxHeight
      rw [deg2rad_ninety, Real.cos_pi_div_two, zero_mul]
    have ht := hcont.tendsto 90
    rwa [h1] at ht
  · have h1 : bboxHeight (-90) w = 0 := by
      unfold bboxHeight
      rw [deg2rad_neg_ninety, Real.cos_neg, Real.cos_pi_div_two, zero_mul]
    have ht := hcont.tendsto (-90)
    rwa [h1] at ht
  · have hxne : deg2rad dec ≠ 0 := by
      unfold deg2rad
      exact mul_ne_zero h0 (ne_of_gt (by positivity))
    have habs := deg2rad_abs_lt dec h90
    have hpi := Real.pi_pos
    have hb := abs_lt.mp habs
    have hlt1 : Real.cos (deg2rad dec) < 1 := by
      rcases lt_or_eq_of_le (Real.cos_le_one (deg2rad dec)) with h | h
      · exact h
      · exfalso
        apply hxne
        refine (Real.cos_eq_one_iff_of_lt_of_lt ?_ ?_).mp h
        · linarith [hb.1]
        · linarith [hb.2]
    calc bboxHeight dec w = Real.cos (deg2rad dec) * w := rfl
      _ < 1 * w := mul_lt_mul_of_pos_right hlt1 hw
      _ = w := one_mul w

/-- Witness for C9's amended theorem at `dec = 60`, `w = 1`. -/
theorem bbox_height_foreshortening_witness :
    bboxHeight 60 1 = Real.cos (deg2rad 60) * 1 ∧
    bboxHeight 0 1 = 1 ∧
    Filter.Tendsto (fun d => bboxHeight d 1) (nhds 90) (nhds 0) ∧
    Filter.Tendsto (fun d => bboxHeight d 1) (nhds (-90)) (nhds 0) ∧
    bboxHeight 60 1 < 1 :=
  bbox_height_foreshortening 60 1 (by norm_num) (by norm_num)
    (by rw [abs_of_pos (by norm_num : (0 : ℝ) < 60)]; norm_num)

end AskFirst
